import Mathlib

/-!
Verification development for `debug_log_viewer.py` (Nanovor DebugLog viewer).

The definitions below are a shallow embedding of the program's core:
the sender filter (`extract_sender`, `should_exclude`), the per-receipt
client-session processing of `LogServer._serve_client` (policy-handshake
interception, line splitting, JSON decoding, command dispatch, event
queueing), and the observable effect of `LogServer.stop`.

Modelling conventions:
* Byte buffers are `List Char`, each `Char` standing for one byte; all
  verified inputs are ASCII, where UTF-8 decoding (done by the program with
  errors="replace", hence never failing) is the identity.
* A Python exception escaping a piece of code is an `Except.error ()`
  value (the program's session-level handler catches any such exception
  and closes the connection).
* Python's `str.lower` is modelled characterwise with `Char.toLower`
  (ASCII case mapping); the verified inputs are ASCII.
* Python tuples of exclusion substrings are `List String`.
-/

/-- Python whitespace for `str.split(None, ...)`: the ASCII whitespace
characters plus the Unicode whitespace code points recognized by
`str.isspace`. -/
def pyWs (c : Char) : Bool :=
  c = ' ' || c = '\t' || c = '\n' || c = '\r' || c = '\x0b' || c = '\x0c' ||
  c = '\x1c' || c = '\x1d' || c = '\x1e' || c = '\x1f' || c = '\x85' ||
  c = '\xa0' || c = '\u1680' || ('\u2000' ≤ c && c ≤ '\u200a') ||
  c = '\u2028' || c = '\u2029' || c = '\u202f' || c = '\u205f' || c = '\u3000'

/-- Whitespace stripped by Python `bytes.strip` / `bytes.lstrip`
(the six ASCII whitespace bytes). -/
def pyWsB (c : Char) : Bool :=
  c = ' ' || c = '\t' || c = '\n' || c = '\r' || c = '\x0b' || c = '\x0c'

/-- `pat` is a prefix of `l` (characterwise). -/
def prefixEq : List Char → List Char → Bool
  | [], _ => true
  | _ :: _, [] => false
  | a :: as, b :: bs => a = b && prefixEq as bs

/-- `hasSub pat l`: `pat` occurs as a contiguous sublist of `l`.
This is Python's substring operator `in` on the underlying characters. -/
def hasSub : List Char → List Char → Bool
  | pat, [] => pat.isEmpty
  | pat, c :: cs => prefixEq pat (c :: cs) || hasSub pat cs

/-- Python `needle in hay` on strings. -/
def strContains (hay needle : String) : Bool :=
  hasSub needle.data hay.data

/-- Python `s.lower()`, modelled characterwise (ASCII case mapping). -/
def pyLower (s : String) : String :=
  String.mk (s.data.map Char.toLower)

/-- `msg.split(None, 1)[0]` when it exists: drop leading whitespace, then
take the first maximal run of non-whitespace characters.  `none` when the
string is all whitespace, in which case Python's `parts[0]` raises
`IndexError`. -/
def firstToken (l : List Char) : Option (List Char) :=
  match l.dropWhile pyWs with
  | [] => none
  | c :: cs => some ((c :: cs).takeWhile (fun d => !pyWs d))

/-- `extract_sender` from debug_log_viewer.py.  Returns `Except.error ()`
when the Python code raises (`parts[0]` on the empty list produced by
splitting a non-empty all-whitespace string). -/
def extract_sender (msg : String) : Except Unit String :=
  if msg = "" then .ok ""
  else
    match firstToken msg.data with
    | none => .error ()
    | some t => .ok (pyLower (String.mk t))

/-- `should_exclude` from debug_log_viewer.py.  Propagates the
`extract_sender` exception. -/
def should_exclude (msg : String) (exclude_senders : List String) :
    Except Unit Bool :=
  if exclude_senders = [] then .ok false
  else
    match extract_sender msg with
    | .error e => .error e
    | .ok sender =>
        .ok (exclude_senders.any fun exc =>
          strContains sender exc || strContains (pyLower msg) exc)

/-- `DEFAULT_EXCLUDE_SENDERS` from debug_log_viewer.py. -/
def DEFAULT_EXCLUDE_SENDERS : List String :=
  ["download", "downloadovor", "downloadmanager"]

/-! ### JSON values and a model of `json.loads`

The program decodes each line with Python's `json.loads`.  The model below
follows Python's json grammar: objects, arrays, strings (with escape
sequences, including `\u`), integers, fractional/exponent numbers, the
constants `true`/`false`/`null` and Python's `NaN`/`Infinity`/`-Infinity`
extensions.  Numbers with a fractional or exponent part, and the
NaN/Infinity constants, become Python floats; the model carries them
symbolically as their matched lexeme (`J.float`), since no verified
statement computes with float values (floating point is outside the
model).  A `\u` escape denoting a lone surrogate yields a Python `str`
holding an unpaired surrogate, which a Lean `Char` cannot hold; the model
carries the replacement character U+FFFD in its place — again no verified
statement inspects such a string, only the parse's success matters.
`json.loads` maps JSON objects to `dict` (later duplicate keys overwrite
earlier ones), and raises on trailing non-whitespace after the value. -/

inductive J where
  | null : J
  | bool : Bool → J
  | num : Int → J
  | float : String → J
  | str : String → J
  | arr : List J → J
  | obj : List (String × J) → J

/-- JSON inter-token whitespace (RFC 8259: space, tab, newline, return). -/
def jsonWs (c : Char) : Bool :=
  c = ' ' || c = '\t' || c = '\n' || c = '\r'

def skipJsonWs (l : List Char) : List Char :=
  l.dropWhile jsonWs

def isHexDig (c : Char) : Bool :=
  c.isDigit || ('a' ≤ c && c ≤ 'f') || ('A' ≤ c && c ≤ 'F')

def hexVal (c : Char) : Nat :=
  if c.isDigit then c.toNat - '0'.toNat
  else if 'a' ≤ c && c ≤ 'f' then c.toNat - 'a'.toNat + 10
  else c.toNat - 'A'.toNat + 10

def hexQuad (a b c d : Char) : Nat :=
  ((hexVal a * 16 + hexVal b) * 16 + hexVal c) * 16 + hexVal d

/-- String-literal body parser; called after the opening quote.  Handles
the single-character escapes and `\uXXXX` escapes the way Python's
`py_scanstring` does: a high-surrogate escape immediately followed by a
`\u` escape of a low surrogate combines into one supplementary
character; otherwise a surrogate escape yields a Python `str` with an
unpaired surrogate, carried here as U+FFFD (see the section comment).
Literal control characters are invalid inside JSON strings (Python's
strict mode).  Each recursive call consumes at least one input
character, so fuel `length + 1` runs the parse to completion. -/
def parseStringAux : Nat → List Char → List Char → Option (String × List Char)
  | 0, _, _ => none
  | _ + 1, _, [] => none
  | fuel + 1, acc, c :: cs =>
    if c = '"' then some (String.mk acc.reverse, cs)
    else if c = '\\' then
      match cs with
      | '"' :: rest => parseStringAux fuel ('"' :: acc) rest
      | '\\' :: rest => parseStringAux fuel ('\\' :: acc) rest
      | '/' :: rest => parseStringAux fuel ('/' :: acc) rest
      | 'n' :: rest => parseStringAux fuel ('\n' :: acc) rest
      | 't' :: rest => parseStringAux fuel ('\t' :: acc) rest
      | 'r' :: rest => parseStringAux fuel ('\r' :: acc) rest
      | 'b' :: rest => parseStringAux fuel ('\x08' :: acc) rest
      | 'f' :: rest => parseStringAux fuel ('\x0c' :: acc) rest
      | 'u' :: h1 :: h2 :: h3 :: h4 :: rest =>
        if isHexDig h1 && isHexDig h2 && isHexDig h3 && isHexDig h4 then
          if 0xd800 ≤ hexQuad h1 h2 h3 h4 && hexQuad h1 h2 h3 h4 ≤ 0xdbff then
            match rest with
            | '\\' :: 'u' :: g1 :: g2 :: g3 :: g4 :: rest2 =>
              if isHexDig g1 && isHexDig g2 && isHexDig g3 && isHexDig g4 then
                if 0xdc00 ≤ hexQuad g1 g2 g3 g4 &&
                    hexQuad g1 g2 g3 g4 ≤ 0xdfff then
                  parseStringAux fuel
                    (Char.ofNat (0x10000 +
                      (hexQuad h1 h2 h3 h4 - 0xd800) * 0x400 +
                      (hexQuad g1 g2 g3 g4 - 0xdc00)) :: acc) rest2
                else
                  parseStringAux fuel ('\ufffd' :: acc)
                    ('\\' :: 'u' :: g1 :: g2 :: g3 :: g4 :: rest2)
              else none
            | _ => parseStringAux fuel ('\ufffd' :: acc) rest
          else if 0xdc00 ≤ hexQuad h1 h2 h3 h4 &&
              hexQuad h1 h2 h3 h4 ≤ 0xdfff then
            parseStringAux fuel ('\ufffd' :: acc) rest
          else
            parseStringAux fuel (Char.ofNat (hexQuad h1 h2 h3 h4) :: acc) rest
        else none
      | _ => none
    else if c.toNat < 0x20 then none
    else parseStringAux fuel (c :: acc) cs

def digitsToNat (ds : List Char) : Nat :=
  ds.foldl (fun n c => 10 * n + (c.toNat - '0'.toNat)) 0

/-- The optional fraction group of Python's number regex: `.` followed by
at least one digit; unmatched groups consume nothing. -/
def parseFrac : List Char → List Char × List Char
  | '.' :: rest =>
    match rest.takeWhile Char.isDigit, rest.dropWhile Char.isDigit with
    | [], _ => ([], '.' :: rest)
    | ds, r => ('.' :: ds, r)
  | l => ([], l)

/-- The optional exponent group of Python's number regex: `e`/`E`, an
optional sign, at least one digit; unmatched groups consume nothing. -/
def parseExp : List Char → List Char × List Char
  | e :: rest =>
    if e = 'e' || e = 'E' then
      match rest with
      | sgn :: rest2 =>
        if sgn = '+' || sgn = '-' then
          match rest2.takeWhile Char.isDigit, rest2.dropWhile Char.isDigit with
          | [], _ => ([], e :: rest)
          | ds, r => (e :: sgn :: ds, r)
        else
          match rest.takeWhile Char.isDigit, rest.dropWhile Char.isDigit with
          | [], _ => ([], e :: rest)
          | ds, r => (e :: ds, r)
      | [] => ([], [e])
    else ([], e :: rest)
  | [] => ([], [])

/-- Number parsing after the optional minus sign has been split off. -/
def parseNumberCore (sign : List Char) (l : List Char) :
    Option (J × List Char) :=
  match l with
  | c :: cs =>
    if c.isDigit then
      let ip := if c = '0' then ['0'] else l.takeWhile Char.isDigit
      let r1 := if c = '0' then cs else l.dropWhile Char.isDigit
      let fr := (parseFrac r1).1
      let r2 := (parseFrac r1).2
      let ex := (parseExp r2).1
      let r3 := (parseExp r2).2
      if fr.isEmpty && ex.isEmpty then
        some (J.num (if sign.isEmpty then (digitsToNat ip : Int)
          else -(digitsToNat ip : Int)), r3)
      else some (J.float (String.mk (sign ++ ip ++ fr ++ ex)), r3)
    else none
  | [] => none

/-- JSON number parser, following Python's `NUMBER_RE`: an optional
minus, an integer part (`0` alone or a run of digits not starting with
`0`), an optional fraction (`.` plus at least one digit) and an optional
exponent (`e`/`E`, optional sign, at least one digit); the longest such
prefix is consumed, as the regex does (trailing junk is then rejected by
the surrounding parser, as Python raises "Extra data" or a delimiter
error).  A pure integer becomes `J.num`; a fractional or exponent part
makes a Python float, carried as `J.float` of the matched lexeme. -/
def parseNumber (l : List Char) : Option (J × List Char) :=
  match l with
  | '-' :: l1 => parseNumberCore ['-'] l1
  | _ => parseNumberCore [] l

/-- Object-member list parser; called after `\x7b` when the object is
non-empty.  `pv` is the value parser for member values. -/
def parseMembers (pv : List Char → Option (J × List Char)) :
    Nat → List (String × J) → List Char →
    Option (List (String × J) × List Char)
  | 0, _, _ => none
  | fuel + 1, acc, l =>
    match skipJsonWs l with
    | '"' :: cs =>
      match parseStringAux (cs.length + 1) [] cs with
      | none => none
      | some (key, rest) =>
        match skipJsonWs rest with
        | ':' :: rest2 =>
          match pv rest2 with
          | none => none
          | some (v, rest3) =>
            match skipJsonWs rest3 with
            | ',' :: rest4 => parseMembers pv fuel (acc ++ [(key, v)]) rest4
            | '\x7d' :: rest4 => some (acc ++ [(key, v)], rest4)
            | _ => none
        | _ => none
    | _ => none

/-- Array-element list parser; called after `[` when the array is
non-empty. -/
def parseElems (pv : List Char → Option (J × List Char)) :
    Nat → List J → List Char → Option (List J × List Char)
  | 0, _, _ => none
  | fuel + 1, acc, l =>
    match pv l with
    | none => none
    | some (v, rest) =>
      match skipJsonWs rest with
      | ',' :: rest2 => parseElems pv fuel (acc ++ [v]) rest2
      | ']' :: rest2 => some (acc ++ [v], rest2)
      | _ => none

/-- JSON value parser.  The fuel bounds the nesting depth; every verified
input is evaluated with fuel `length + 1`, which exceeds any possible
nesting depth, since each nesting level consumes at least one character
before recursing. -/
def parseVal : Nat → List Char → Option (J × List Char)
  | 0, _ => none
  | fuel + 1, l =>
    match skipJsonWs l with
    | [] => none
    | '\x7b' :: cs =>
      (match skipJsonWs cs with
       | '\x7d' :: rest => some (J.obj [], rest)
       | _ => (parseMembers (parseVal fuel) (cs.length + 1) [] cs).map
           (fun p => (J.obj p.1, p.2)))
    | '[' :: cs =>
      (match skipJsonWs cs with
       | ']' :: rest => some (J.arr [], rest)
       | _ => (parseElems (parseVal fuel) (cs.length + 1) [] cs).map
           (fun p => (J.arr p.1, p.2)))
    | '"' :: cs =>
      (parseStringAux (cs.length + 1) [] cs).map (fun p => (J.str p.1, p.2))
    | 't' :: 'r' :: 'u' :: 'e' :: rest => some (J.bool true, rest)
    | 'f' :: 'a' :: 'l' :: 's' :: 'e' :: rest => some (J.bool false, rest)
    | 'n' :: 'u' :: 'l' :: 'l' :: rest => some (J.null, rest)
    | 'N' :: 'a' :: 'N' :: rest => some (J.float "NaN", rest)
    | 'I' :: 'n' :: 'f' :: 'i' :: 'n' :: 'i' :: 't' :: 'y' :: rest =>
      some (J.float "Infinity", rest)
    | '-' :: 'I' :: 'n' :: 'f' :: 'i' :: 'n' :: 'i' :: 't' :: 'y' :: rest =>
      some (J.float "-Infinity", rest)
    | c :: cs => parseNumber (c :: cs)

/-- `json.loads` on one line: parse one value and require only whitespace
after it (otherwise Python raises "Extra data"); `none` is a raised
`ValueError`. -/
def jsonParse (l : List Char) : Option J :=
  match parseVal (l.length + 1) l with
  | none => none
  | some (v, rest) => if skipJsonWs rest = [] then some v else none

/-! ### Client-session processing (`LogServer._serve_client`)

`recvStep` below models one iteration of the receive loop after a
successful `conn.recv`: append the received bytes to the buffer, run the
policy-handshake interception, then the line-splitting loop.  Network
writes (`conn.sendall`) are modelled as always succeeding and are counted.
An exception escaping the line loop (`crashed = true`) is caught by the
session-level handler, which closes the connection: the session is over,
but events already queued stay queued. -/

/-- An entry of the thread-safe `log_queue`: either `("clear", None)` or
`(cmd, (msg, ts, tieBreaker))`.  The payload components are the Python
values taken from the parsed JSON object; a Lean `none` is Python `None`
(a missing key or a JSON `null`). -/
inductive QueueItem where
  | clear : QueueItem
  | event (cmd : String) (msg : Option J) (ts : Option J)
      (tie : Option J) : QueueItem

/-- Lookup in a `dict` built by `json.loads`: the last binding of a
duplicated key wins. -/
def lookupLast (fs : List (String × J)) (k : String) : Option J :=
  fs.foldl (fun acc p => if p.1 = k then some p.2 else acc) none

/-- Python `obj.get(k)`: `None` both when the key is absent and when its
JSON value is `null`. -/
def pyGet (fs : List (String × J)) (k : String) : Option J :=
  match lookupLast fs k with
  | some J.null => none
  | v => v

/-- Python `obj.get("msg", "")`: the empty string when the key is absent,
`None` when its value is JSON `null`, the value otherwise. -/
def pyGetMsg (fs : List (String × J)) : Option J :=
  match lookupLast fs "msg" with
  | none => some (J.str "")
  | some J.null => none
  | some v => some v

/-- `should_exclude` applied to the Python value of the `msg` field.
With a non-empty exclusion tuple and a non-string `msg`, the Python code
raises `AttributeError` (on `.split` or `.lower`); with an empty tuple it
returns `False` before touching `msg`. -/
def pyShouldExcludeV (excl : List String) (msg : Option J) :
    Except Unit Bool :=
  if excl = [] then .ok false
  else
    match msg with
    | some (J.str s) => should_exclude s excl
    | _ => .error ()

/-- The command dispatch of `_serve_client` on a parsed JSON object:
`cmd == "clear"` queues the bare clear signal; `cmd` in
`("log", "error", "comment")` filters on `msg` and queues the event with
the `ts` and `tieBreaker` payloads; anything else is ignored. -/
def processObj (excl : List String) (fs : List (String × J)) :
    Except Unit (List QueueItem) :=
  match pyGet fs "cmd" with
  | some (J.str c) =>
    if c = "clear" then .ok [QueueItem.clear]
    else if c = "log" || c = "error" || c = "comment" then
      match pyShouldExcludeV excl (pyGetMsg fs) with
      | .error e => .error e
      | .ok true => .ok []
      | .ok false =>
          .ok [QueueItem.event c (pyGetMsg fs) (pyGet fs "ts")
            (pyGet fs "tieBreaker")]
    else .ok []
  | _ => .ok []

/-- Processing of one stripped, non-empty line: `json.loads` failure drops
the line (`try/except: continue`); a parsed non-object raises
`AttributeError` at `obj.get`, which escapes the line loop. -/
def handleLine (excl : List String) (line : List Char) :
    Except Unit (List QueueItem) :=
  match jsonParse line with
  | none => .ok []
  | some (J.obj fs) => processObj excl fs
  | some _ => .error ()

/-- Python `bytes.strip()` on the extracted line. -/
def stripList (l : List Char) : List Char :=
  ((l.dropWhile pyWsB).reverse.dropWhile pyWsB).reverse

/-- Python `buffer.partition(b"\n")` reduced to the two used components:
the bytes before the first newline and the bytes after it; when there is
no newline the whole buffer is the "line" and nothing remains. -/
def splitNl : List Char → List Char × List Char
  | [] => ([], [])
  | c :: cs =>
    if c = '\n' then ([], cs)
    else (c :: (splitNl cs).1, (splitNl cs).2)

/-- The line-splitting loop of `_serve_client`:
`while b"\n" in buffer or b"\r" in buffer`.  Result: queued events in
order, the remaining buffer, and whether an exception escaped the loop.
The fuel only bounds the iteration count; `processLinesF_fuel` below shows
any fuel above the buffer length gives the same result, and the model
always runs it with fuel `length + 1`. -/
def processLinesF (excl : List String) :
    Nat → List Char → List QueueItem → List QueueItem × List Char × Bool
  | 0, buf, acc => (acc, buf, false)
  | fuel + 1, buf, acc =>
    if buf.contains '\n' || buf.contains '\r' then
      if stripList (splitNl buf).1 = [] then
        processLinesF excl fuel (splitNl buf).2 acc
      else
        match handleLine excl (stripList (splitNl buf).1) with
        | .error _ => (acc, (splitNl buf).2, true)
        | .ok evs => processLinesF excl fuel (splitNl buf).2 (acc ++ evs)
    else (acc, buf, false)

/-- `FLASH_POLICY_REQUEST` from debug_log_viewer.py. -/
def FLASH_POLICY_REQUEST : List Char :=
  "<policy-file-request/>".data

/-- `FLASH_POLICY_RESPONSE` from debug_log_viewer.py (the fixed
cross-domain XML document, null-terminated). -/
def FLASH_POLICY_RESPONSE : List Char :=
  ("<?xml version=\"1.0\"?><cross-domain-policy>" ++
   "<allow-access-from domain=\"*\" to-ports=\"*\"/>" ++
   "</cross-domain-policy>\x00").data

/-- First index at which `pat` occurs in `l` (Python `bytes.find`). -/
def findSubIdx (pat : List Char) : List Char → Option Nat
  | [] => if pat.isEmpty then some 0 else none
  | c :: cs =>
    if prefixEq pat (c :: cs) then some 0
    else (findSubIdx pat cs).map (· + 1)

/-- First index `≥ start` holding character `c`
(Python `bytes.find(c, start)`). -/
def findCharFrom (c : Char) (start : Nat) (l : List Char) : Option Nat :=
  ((l.drop start).findIdx? (· = c)).map (· + start)

/-- The policy-handshake interception run once per receipt: if the request
pattern occurs in the buffer and a null byte follows its start, write the
fixed response on the connection and keep only the bytes after that null
byte, left-stripped; otherwise leave the buffer alone.  The second
component lists the byte strings written back on the connection
(`conn.sendall` is modelled as succeeding). -/
def policyPhase (buf : List Char) : List Char × List (List Char) :=
  if hasSub FLASH_POLICY_REQUEST buf then
    match findSubIdx FLASH_POLICY_REQUEST buf with
    | none => (buf, [])
    | some i =>
      match findCharFrom '\x00' i buf with
      | none => (buf, [])
      | some e => ((buf.drop (e + 1)).dropWhile pyWsB, [FLASH_POLICY_RESPONSE])
  else (buf, [])

/-- The line phase of one receipt. -/
def linePhase (excl : List String) (buf : List Char) :
    List QueueItem × List Char × Bool :=
  processLinesF excl (buf.length + 1) buf []

/-- Observable result of one receive-loop iteration: the events queued in
order, the bytes still buffered, the byte strings written back on the
connection, and whether an exception escaped to the session-level
handler. -/
structure StepResult where
  events : List QueueItem
  buffer : List Char
  policyWrites : List (List Char)
  crashed : Bool

/-- One iteration of the `_serve_client` receive loop on a successful
`conn.recv(...)` returning `data`, starting from buffered bytes `buf`. -/
def recvStep (excl : List String) (buf data : List Char) : StepResult :=
  { events := (linePhase excl (policyPhase (buf ++ data)).1).1
  , buffer := (linePhase excl (policyPhase (buf ++ data)).1).2.1
  , policyWrites := (policyPhase (buf ++ data)).2
  , crashed := (linePhase excl (policyPhase (buf ++ data)).1).2.2 }

/-! ### Server shutdown (`LogServer.stop`)

The socket layer is external; the state below records the observable
effects of `stop()`: the `_running` flag, the `_clients` list, which
client sockets have had `close()` called on them, and whether the
listening socket has been closed.  Every `close()` in `stop()` is wrapped
in `try/except: pass`, so closing never raises; the model's `stop` is
correspondingly total. -/

structure ServerState where
  running : Bool
  clients : List Nat
  sock : Option Nat
  closedClients : List Nat
  sockClosed : Bool

/-- `LogServer.stop` from debug_log_viewer.py: clear `_running`, close
every client socket (errors swallowed), clear `_clients`, then close the
listening socket if there is one (errors swallowed). -/
def LogServer.stop (s : ServerState) : ServerState :=
  { running := false
  , clients := []
  , sock := s.sock
  , closedClients := s.closedClients ++ s.clients
  , sockClosed := if s.sock.isSome then true else s.sockClosed }

/-! ### Substring lemmas -/

theorem prefixEq_iff (pat l : List Char) :
    prefixEq pat l = true ↔ ∃ r, l = pat ++ r := by
  induction pat generalizing l with
  | nil => simp [prefixEq]
  | cons a as ih =>
    cases l with
    | nil => simp [prefixEq]
    | cons b bs =>
      simp only [prefixEq, Bool.and_eq_true, decide_eq_true_eq, ih,
        List.cons_append, List.cons.injEq]
      constructor
      · rintro ⟨hab, r, hr⟩
        exact ⟨r, hab.symm, hr⟩
      · rintro ⟨r, hab, hr⟩
        exact ⟨hab.symm, r, hr⟩

theorem hasSub_iff (pat l : List Char) :
    hasSub pat l = true ↔ ∃ u v, l = u ++ pat ++ v := by
  induction l with
  | nil =>
    simp only [hasSub, List.isEmpty_iff]
    constructor
    · rintro rfl; exact ⟨[], [], rfl⟩
    · rintro ⟨u, v, huv⟩
      cases u <;> cases pat <;> simp_all
  | cons c cs ih =>
    simp only [hasSub, Bool.or_eq_true, prefixEq_iff, ih]
    constructor
    · rintro (⟨r, hr⟩ | ⟨u, v, huv⟩)
      · exact ⟨[], r, by simp [hr]⟩
      · exact ⟨c :: u, v, by simp [huv]⟩
    · rintro ⟨u, v, huv⟩
      cases u with
      | nil => exact Or.inl ⟨v, by simpa using huv⟩
      | cons x xs =>
        simp only [List.cons_append, List.cons.injEq] at huv
        exact Or.inr ⟨xs, v, huv.2⟩

theorem hasSub_extend {pat t u v : List Char}
    (hp : hasSub pat t = true) :
    hasSub pat (u ++ t ++ v) = true := by
  rcases (hasSub_iff pat t).1 hp with ⟨a, b, hab⟩
  exact (hasSub_iff pat (u ++ t ++ v)).2
    ⟨u ++ a, b ++ v, by simp [hab]⟩

theorem anyCongr {l : List String} {f g : String → Bool}
    (h : ∀ a ∈ l, f a = g a) : l.any f = l.any g := by
  induction l with
  | nil => rfl
  | cons a as ih =>
    simp only [List.any_cons, h a (List.mem_cons_self a as),
      ih fun b hb => h b (List.mem_cons_of_mem a hb)]

theorem orAbsorbLeft {a b : Bool} (h : a = true → b = true) :
    (a || b) = b := by
  cases a with
  | false => rfl
  | true => simp [h rfl]

theorem pyShouldExcludeV_str (excl : List String) (s : String) :
    pyShouldExcludeV excl (some (J.str s)) = should_exclude s excl := by
  by_cases h : excl = []
  · subst h; rfl
  · simp [pyShouldExcludeV, h]

/-- The lower-cased first whitespace-delimited token of `m` is a substring
of the lower-cased whole of `m`, so any hit on the sender is also a hit on
the full message. -/
theorem strContains_lower_token {m : String} {c : Char} {cs : List Char}
    (hd : m.data.dropWhile pyWs = c :: cs) (exc : String)
    (h : strContains (pyLower (String.mk ((c :: cs).takeWhile
      (fun d => !pyWs d)))) exc = true) :
    strContains (pyLower m) exc = true := by
  have hsplit1 : m.data.takeWhile pyWs ++ (c :: cs) = m.data := by
    rw [← hd]; exact List.takeWhile_append_dropWhile pyWs m.data
  have hsplit2 : (c :: cs).takeWhile (fun d => !pyWs d) ++
      (c :: cs).dropWhile (fun d => !pyWs d) = c :: cs :=
    List.takeWhile_append_dropWhile _ _
  have hm : m.data = m.data.takeWhile pyWs ++
      (c :: cs).takeWhile (fun d => !pyWs d) ++
      (c :: cs).dropWhile (fun d => !pyWs d) := by
    rw [List.append_assoc, hsplit2, hsplit1]
  unfold strContains pyLower at h ⊢
  rw [hm, List.map_append, List.map_append]
  exact hasSub_extend h

/-- `should_exclude` agrees with the check against the full lower-cased
message alone whenever the message is empty or has a non-whitespace
character (i.e. whenever `extract_sender` does not raise). -/
theorem should_exclude_full (m : String) (E : List String)
    (h : m = "" ∨ m.data.any (fun c => !pyWs c) = true) :
    should_exclude m E =
      .ok (!E.isEmpty && E.any fun exc => strContains (pyLower m) exc) := by
  by_cases hE : E = []
  · subst hE
    simp [should_exclude]
  · have hEne : (!E.isEmpty) = true := by
      cases E with
      | nil => exact absurd rfl hE
      | cons a as => rfl
    rw [hEne, Bool.true_and]
    rcases h with rfl | hws
    · unfold should_exclude extract_sender
      rw [if_neg hE, if_pos rfl]
      have : pyLower "" = "" := rfl
      simp [this, Bool.or_self]
    · cases hd : m.data.dropWhile pyWs with
      | nil =>
        exfalso
        rcases List.any_eq_true.1 hws with ⟨c, hc, hnc⟩
        have := List.dropWhile_eq_nil_iff.1 hd c hc
        rw [this] at hnc
        exact Bool.false_ne_true hnc
      | cons c cs =>
        have hm : m ≠ "" := by
          intro hmnil
          rw [hmnil] at hd
          exact List.noConfusion hd
        unfold should_exclude extract_sender
        rw [if_neg hE, if_neg hm]
        unfold firstToken
        rw [hd]
        refine congrArg Except.ok (anyCongr fun exc _ => ?_)
        exact orAbsorbLeft (strContains_lower_token hd exc)

/-! ### Line-loop lemmas -/

theorem containsOfMem {l : List Char} {c : Char} (h : c ∈ l) :
    l.contains c = true := by
  rw [show l.contains c = List.elem c l from rfl, List.elem_eq_mem]
  exact decide_eq_true h

theorem notMemOfContainsFalse {l : List Char} {c : Char}
    (h : l.contains c = false) : c ∉ l := by
  intro hm
  rw [containsOfMem hm] at h
  exact Bool.noConfusion h

theorem splitNl_append {line : List Char} (rest : List Char)
    (h : line.contains '\n' = false) :
    splitNl (line ++ '\n' :: rest) = (line, rest) := by
  induction line with
  | nil => simp [splitNl]
  | cons c cs ih =>
    have hnot := notMemOfContainsFalse h
    have hc : ¬(c = '\n') := fun e => hnot (e ▸ List.mem_cons_self c cs)
    have h2 : cs.contains '\n' = false := by
      cases hcs : cs.contains '\n' with
      | false => rfl
      | true =>
        exact absurd (List.mem_cons_of_mem c
          (by
            have := hcs
            rw [show cs.contains '\n' = List.elem '\n' cs from rfl,
              List.elem_eq_mem] at this
            exact of_decide_eq_true this)) hnot
    simp [splitNl, hc, ih h2]

theorem processLinesF_done (excl : List String) (fuel : Nat)
    (buf : List Char) (acc : List QueueItem)
    (hn : buf.contains '\n' = false) (hr : buf.contains '\r' = false) :
    processLinesF excl fuel buf acc = (acc, buf, false) := by
  cases fuel with
  | zero => rfl
  | succ f =>
    simp only [processLinesF]
    rw [hn, hr]
    simp

theorem linePhase_single (excl : List String) (line : List Char)
    (evs : List QueueItem)
    (hn : line.contains '\n' = false)
    (hs : stripList line = line) (hne : ¬(line = []))
    (hh : handleLine excl line = .ok evs) :
    linePhase excl (line ++ ['\n']) = (evs, [], false) := by
  unfold linePhase
  have hlen : (line ++ ['\n']).length + 1 = line.length + 1 + 1 := by simp
  rw [hlen]
  have hguard : (line ++ ['\n']).contains '\n' = true :=
    containsOfMem (List.mem_append.2 (Or.inr (List.mem_singleton.2 rfl)))
  have hsplit : splitNl (line ++ ['\n']) = (line, []) := splitNl_append [] hn
  simp only [processLinesF, hguard, Bool.true_or, if_pos, hsplit, hs,
    if_neg hne, hh, List.nil_append]
  simp

theorem splitNl_len {buf : List Char} (h : ¬(buf = [])) :
    (splitNl buf).2.length < buf.length := by
  induction buf with
  | nil => exact absurd rfl h
  | cons c cs ih =>
    by_cases hc : c = '\n'
    · simp [splitNl, hc, Nat.lt_succ_self]
    · simp only [splitNl, if_neg hc, List.length_cons]
      cases cs with
      | nil => simp [splitNl]
      | cons d ds =>
        exact Nat.lt_trans (ih (by simp)) (Nat.lt_succ_self _)

theorem containsNonempty {buf : List Char} {c : Char}
    (h : buf.contains c = true) : ¬(buf = []) := by
  intro he
  subst he
  exact Bool.noConfusion h

/-- The fuel in `processLinesF` is irrelevant as long as it exceeds the
buffer length: the iteration count of the source's `while` loop is
bounded by the buffer length, because each iteration consumes at least one
byte of the buffer.  In particular running with fuel `length + 1`
(as `linePhase` does) computes the loop exactly. -/
theorem processLinesF_fuel (excl : List String) :
    ∀ f₁, ∀ buf acc f₂, buf.length < f₁ → buf.length < f₂ →
      processLinesF excl f₁ buf acc = processLinesF excl f₂ buf acc := by
  intro f₁
  induction f₁ with
  | zero => intro buf acc f₂ h1; exact absurd h1 (Nat.not_lt_zero _)
  | succ g ih =>
    intro buf acc f₂ h1 h2
    cases f₂ with
    | zero => exact absurd h2 (Nat.not_lt_zero _)
    | succ g2 =>
      simp only [processLinesF]
      by_cases hguard : (buf.contains '\n' || buf.contains '\r') = true
      · rw [hguard]
        have hne : ¬(buf = []) := by
          rcases Bool.or_eq_true_iff.1 hguard with hc | hc
          · exact containsNonempty hc
          · exact containsNonempty hc
        have hlt := splitNl_len hne
        have hg1 : (splitNl buf).2.length < g :=
          Nat.lt_of_lt_of_le hlt (Nat.le_of_lt_succ h1)
        have hg2 : (splitNl buf).2.length < g2 :=
          Nat.lt_of_lt_of_le hlt (Nat.le_of_lt_succ h2)
        by_cases hstrip : stripList (splitNl buf).1 = []
        · simp only [if_pos hstrip]
          exact ih _ acc _ hg1 hg2
        · simp only [if_neg hstrip]
          cases handleLine excl (stripList (splitNl buf).1) with
          | error e => rfl
          | ok evs => exact ih _ (acc ++ evs) _ hg1 hg2
      · rw [Bool.not_eq_true] at hguard
        rw [hguard]
        simp

/-! ### Claims -/

/-- C1: the claim says `should_exclude(m, E)` returns a boolean for every
message string `m` (false for empty `E`, and otherwise true iff some
element of `E` occurs in the lowered first token or the lowered full
text).  The code does not: for a non-empty all-whitespace message and a
non-empty exclusion tuple, `msg.split(None, 1)` is the empty list, so
`parts[0]` in `extract_sender` raises `IndexError` and `should_exclude`
raises instead of returning false (the claim's right-hand side is false
here, since "download" occurs nowhere in a blank message).  The
`(parts[0] or "")` guard in the source shows the intended value was the
empty sender, i.e. a false result. -/
theorem claim_C1_whitespace_msg_raises :
    extract_sender " " = .error () ∧
    should_exclude " " ["download"] = .error () :=
  ⟨rfl, rfl⟩

/-- C10 counterexample: the claim asserts
`should_exclude(m, E) = (E nonempty and some element of E occurs in
m.lower())` for every message `m`, and in particular that an exclusion
tuple containing the empty string yields true for every message.  At the
whitespace-only message `" "` with `E = ("",)` the code raises
`IndexError` instead of returning true (the empty string is a substring
of `" ".lower()`). -/
theorem claim_C10_cex :
    should_exclude " " [""] = .error () ∧
    ¬(should_exclude " " [""] = .ok true) :=
  ⟨rfl, fun h => Except.noConfusion h⟩

/-- C10 amended: for every message `m` that is empty or contains a
non-whitespace character (exactly the messages on which `extract_sender`
does not raise), `should_exclude m E` returns
`E nonempty && (some element of E is a substring of m.lower())`: the
separate sender check never changes the result, because the lowered first
token is a substring of the lowered full message.  Consequently an
exclusion tuple containing the empty string makes `should_exclude` return
true for every such message, including the empty message; for non-empty
all-whitespace messages the call raises instead. -/
theorem claim_C10_amended (m : String) (E : List String)
    (h : m = "" ∨ m.data.any (fun c => !pyWs c) = true) :
    should_exclude m E =
      .ok (!E.isEmpty && E.any fun exc => strContains (pyLower m) exc) :=
  should_exclude_full m E h

theorem claim_C10_witness :
    (("x" : String) = "" ∨ "x".data.any (fun c => !pyWs c) = true) ∧
    should_exclude "x" [""] =
      .ok (!(List.isEmpty [""]) &&
        List.any [""] fun exc => strContains (pyLower "x") exc) :=
  ⟨Or.inr (by decide), claim_C10_amended "x" [""] (Or.inr (by decide))⟩

/-- C2 counterexample: the claim says a line whose JSON parses to a
non-object (such as `123`) is silently dropped with the session left
processing subsequent lines.  In the code, `obj.get("cmd")` on the parsed
`int` raises `AttributeError`, which escapes the line loop and is caught
by the session-level handler, closing the connection: feeding
`123\n` followed by a valid `clear` line yields no events at all and a
terminated session. -/
theorem claim_C2_cex :
    (recvStep [] [] ("123\n\x7b\"cmd\":\"clear\"\x7d\n").data).crashed
      = true ∧
    (recvStep [] [] ("123\n\x7b\"cmd\":\"clear\"\x7d\n").data).events
      = [] :=
  ⟨rfl, rfl⟩

/-- C2 amended: a line on which `json.loads` raises (invalid JSON, such
as non-JSON text or a truncated object; also any line of invalid
encoding, since bytes are decoded with errors="replace" and then fail
JSON parsing) is silently dropped and the session keeps processing
subsequent lines; but a line whose JSON parses to a non-object — an
array, an integer, a float such as `1.5` or `1e3`, `NaN`, or a quoted
string such as `"\u0041"` — raises `AttributeError` at `obj.get`, which
the session-level handler catches, silently terminating the session with
no event emitted for that line and no further lines processed.  Each
conjunct pairs one such line with a following valid clear line: the
dropped lines let the clear through; the non-object lines kill the
session before it. -/
theorem claim_C2_amended :
    recvStep [] [] ("oops\n\x7b\"cmd\":\"clear\"\x7d\n").data
      = ⟨[QueueItem.clear], [], [], false⟩ ∧
    recvStep [] [] ("\x7b\"cmd\":\n\x7b\"cmd\":\"clear\"\x7d\n").data
      = ⟨[QueueItem.clear], [], [], false⟩ ∧
    ((recvStep [] [] ("[1,2]\n\x7b\"cmd\":\"clear\"\x7d\n").data).crashed
        = true ∧
      (recvStep [] [] ("[1,2]\n\x7b\"cmd\":\"clear\"\x7d\n").data).events
        = []) ∧
    ((recvStep [] [] ("1.5\n\x7b\"cmd\":\"clear\"\x7d\n").data).crashed
        = true ∧
      (recvStep [] [] ("1.5\n\x7b\"cmd\":\"clear\"\x7d\n").data).events
        = []) ∧
    ((recvStep [] [] ("1e3\n\x7b\"cmd\":\"clear\"\x7d\n").data).crashed
        = true ∧
      (recvStep [] [] ("1e3\n\x7b\"cmd\":\"clear\"\x7d\n").data).events
        = []) ∧
    ((recvStep [] [] ("NaN\n\x7b\"cmd\":\"clear\"\x7d\n").data).crashed
        = true ∧
      (recvStep [] [] ("NaN\n\x7b\"cmd\":\"clear\"\x7d\n").data).events
        = []) ∧
    ((recvStep [] []
        ("\"\\u0041\"\n\x7b\"cmd\":\"clear\"\x7d\n").data).crashed
        = true ∧
      (recvStep [] []
        ("\"\\u0041\"\n\x7b\"cmd\":\"clear\"\x7d\n").data).events
        = []) :=
  ⟨rfl, rfl, ⟨rfl, rfl⟩, ⟨rfl, rfl⟩, ⟨rfl, rfl⟩, ⟨rfl, rfl⟩, ⟨rfl, rfl⟩⟩

/-- C3: on input `<policy-file-request/>\x00` followed by the JSON log
line for "b", the session writes exactly one fixed handshake response,
discards the buffered bytes through the null byte, trims leading
whitespace of the remainder, and queues exactly one
`("log", ("b", None, None))` event, given any exclusion tuple that does
not match the message "b". -/
theorem claim_C3_handshake (excl : List String)
    (h : should_exclude "b" excl = .ok false) :
    policyPhase
        ("<policy-file-request/>\x00\x7b\"cmd\":\"log\",\"msg\":\"b\"\x7d\n").data
      = (("\x7b\"cmd\":\"log\",\"msg\":\"b\"\x7d\n").data,
          [FLASH_POLICY_RESPONSE]) ∧
    recvStep excl []
        ("<policy-file-request/>\x00\x7b\"cmd\":\"log\",\"msg\":\"b\"\x7d\n").data
      = ⟨[QueueItem.event "log" (some (J.str "b")) none none], [], [FLASH_POLICY_RESPONSE],
          false⟩ := by
  refine ⟨rfl, ?_⟩
  have hline : handleLine excl ("\x7b\"cmd\":\"log\",\"msg\":\"b\"\x7d").data
      = .ok [QueueItem.event "log" (some (J.str "b")) none none] := by
    simp only [handleLine,
      show jsonParse ("\x7b\"cmd\":\"log\",\"msg\":\"b\"\x7d").data
        = some (J.obj [("cmd", J.str "log"), ("msg", J.str "b")]) from rfl,
      processObj,
      show pyGet [("cmd", J.str "log"), ("msg", J.str "b")] "cmd"
        = some (J.str "log") from rfl,
      show pyGetMsg [("cmd", J.str "log"), ("msg", J.str "b")]
        = some (J.str "b") from rfl,
      pyShouldExcludeV_str, h]
    rfl
  have hlp : linePhase excl ("\x7b\"cmd\":\"log\",\"msg\":\"b\"\x7d\n").data
      = ([QueueItem.event "log" (some (J.str "b")) none none], [],
          false) := by
    rw [show ("\x7b\"cmd\":\"log\",\"msg\":\"b\"\x7d\n").data
      = ("\x7b\"cmd\":\"log\",\"msg\":\"b\"\x7d").data ++ ['\n'] from rfl]
    exact linePhase_single excl _ _ rfl rfl (by decide) hline
  show StepResult.mk
      (linePhase excl ("\x7b\"cmd\":\"log\",\"msg\":\"b\"\x7d\n").data).1
      (linePhase excl ("\x7b\"cmd\":\"log\",\"msg\":\"b\"\x7d\n").data).2.1
      [FLASH_POLICY_RESPONSE]
      (linePhase excl ("\x7b\"cmd\":\"log\",\"msg\":\"b\"\x7d\n").data).2.2
    = _
  rw [hlp]

theorem claim_C3_witness :
    should_exclude "b" DEFAULT_EXCLUDE_SENDERS = .ok false ∧
    recvStep DEFAULT_EXCLUDE_SENDERS []
        ("<policy-file-request/>\x00\x7b\"cmd\":\"log\",\"msg\":\"b\"\x7d\n").data
      = ⟨[QueueItem.event "log" (some (J.str "b")) none none], [], [FLASH_POLICY_RESPONSE],
          false⟩ :=
  ⟨rfl, (claim_C3_handshake DEFAULT_EXCLUDE_SENDERS rfl).2⟩

/-- C4 counterexample: the claim says a buffer holding two valid JSON
event lines each terminated only by a carriage-return yields one event
per line.  The loop guard accepts `\r` but the buffer is partitioned on
`\n` only, so the whole buffer is consumed as a single "line" (trailing
`\r` stripped, inner `\r` kept) whose JSON parse fails with extra data:
zero events are produced and the buffer is emptied. -/
theorem claim_C4_cex :
    recvStep [] []
        ("\x7b\"cmd\":\"log\",\"msg\":\"a\"\x7d\r\x7b\"cmd\":\"log\",\"msg\":\"b\"\x7d\r").data
      = ⟨[], [], [], false⟩ ∧
    ¬((recvStep [] []
        ("\x7b\"cmd\":\"log\",\"msg\":\"a\"\x7d\r\x7b\"cmd\":\"log\",\"msg\":\"b\"\x7d\r").data).events.length
      = 2) :=
  ⟨rfl, by decide⟩

/-- C4 amended: line extraction is entered whenever the buffer contains a
newline or a carriage-return, but the buffer is split on newline only,
carriage-returns being removed only as leading/trailing whitespace of the
extracted line.  A single line terminated by a carriage-return alone does
yield its event; a buffer holding two CR-terminated JSON lines and no
newline is consumed as one line whose JSON parse fails, yielding zero
events and an empty buffer; and bytes after a newline that do not yet
form a complete line remain buffered. -/
theorem claim_C4_amended :
    recvStep [] [] ("\x7b\"cmd\":\"log\",\"msg\":\"a\"\x7d\r").data
      = ⟨[QueueItem.event "log" (some (J.str "a")) none none], [], [],
          false⟩ ∧
    recvStep [] [] ("\x7b\"cmd\":\"log\",\"msg\":\"a\"\x7d\n\x7b\"cm").data
      = ⟨[QueueItem.event "log" (some (J.str "a")) none none],
          ("\x7b\"cm").data, [], false⟩ ∧
    recvStep [] []
        ("\x7b\"cmd\":\"log\",\"msg\":\"a\"\x7d\r\x7b\"cmd\":\"log\",\"msg\":\"b\"\x7d\r").data
      = ⟨[], [], [], false⟩ :=
  ⟨rfl, rfl, rfl⟩

/-- C5: the bytes of one event line arriving split mid-line across two
receipts produce zero events after the first receipt (the partial line
stays buffered) and exactly one event after the receipt completing the
line. -/
theorem claim_C5_split_mid_line :
    recvStep [] [] ("\x7b\"cmd\":\"log\",\"ms").data
      = ⟨[], ("\x7b\"cmd\":\"log\",\"ms").data, [], false⟩ ∧
    recvStep []
        (recvStep [] [] ("\x7b\"cmd\":\"log\",\"ms").data).buffer
        ("g\":\"a\"\x7d\n").data
      = ⟨[QueueItem.event "log" (some (J.str "a")) none none], [], [],
          false⟩ :=
  ⟨rfl, rfl⟩

/-- C6: the buffer holding exactly the JSON log line for
"Nanovor 1 hello" with ts 1700000000000 enqueues exactly one event with
kind log, that message, that timestamp and no tieBreaker, for any
exclusion tuple that does not match the message (e.g. the empty one, see
the witness). -/
theorem claim_C6_round_trip (excl : List String)
    (h : should_exclude "Nanovor 1 hello" excl = .ok false) :
    recvStep excl []
        ("\x7b\"cmd\":\"log\",\"msg\":\"Nanovor 1 hello\",\"ts\":1700000000000\x7d\n").data
      = ⟨[QueueItem.event "log" (some (J.str "Nanovor 1 hello"))
            (some (J.num 1700000000000)) none], [], [], false⟩ := by
  have hline : handleLine excl
      ("\x7b\"cmd\":\"log\",\"msg\":\"Nanovor 1 hello\",\"ts\":1700000000000\x7d").data
      = .ok [QueueItem.event "log" (some (J.str "Nanovor 1 hello"))
          (some (J.num 1700000000000)) none] := by
    simp only [handleLine,
      show jsonParse
          ("\x7b\"cmd\":\"log\",\"msg\":\"Nanovor 1 hello\",\"ts\":1700000000000\x7d").data
        = some (J.obj [("cmd", J.str "log"),
            ("msg", J.str "Nanovor 1 hello"),
            ("ts", J.num 1700000000000)]) from rfl,
      processObj,
      show pyGet [("cmd", J.str "log"), ("msg", J.str "Nanovor 1 hello"),
          ("ts", J.num 1700000000000)] "cmd" = some (J.str "log") from rfl,
      show pyGetMsg [("cmd", J.str "log"), ("msg", J.str "Nanovor 1 hello"),
          ("ts", J.num 1700000000000)]
        = some (J.str "Nanovor 1 hello") from rfl,
      pyShouldExcludeV_str, h]
    rfl
  have hlp : linePhase excl
      ("\x7b\"cmd\":\"log\",\"msg\":\"Nanovor 1 hello\",\"ts\":1700000000000\x7d\n").data
      = ([QueueItem.event "log" (some (J.str "Nanovor 1 hello"))
          (some (J.num 1700000000000)) none], [], false) := by
    rw [show
      ("\x7b\"cmd\":\"log\",\"msg\":\"Nanovor 1 hello\",\"ts\":1700000000000\x7d\n").data
      = ("\x7b\"cmd\":\"log\",\"msg\":\"Nanovor 1 hello\",\"ts\":1700000000000\x7d").data
        ++ ['\n'] from rfl]
    exact linePhase_single excl _ _ rfl rfl (by decide) hline
  show StepResult.mk
      (linePhase excl
        ("\x7b\"cmd\":\"log\",\"msg\":\"Nanovor 1 hello\",\"ts\":1700000000000\x7d\n").data).1
      (linePhase excl
        ("\x7b\"cmd\":\"log\",\"msg\":\"Nanovor 1 hello\",\"ts\":1700000000000\x7d\n").data).2.1
      []
      (linePhase excl
        ("\x7b\"cmd\":\"log\",\"msg\":\"Nanovor 1 hello\",\"ts\":1700000000000\x7d\n").data).2.2
    = _
  rw [hlp]

theorem claim_C6_witness :
    should_exclude "Nanovor 1 hello" [] = .ok false ∧
    recvStep [] []
        ("\x7b\"cmd\":\"log\",\"msg\":\"Nanovor 1 hello\",\"ts\":1700000000000\x7d\n").data
      = ⟨[QueueItem.event "log" (some (J.str "Nanovor 1 hello"))
            (some (J.num 1700000000000)) none], [], [], false⟩ :=
  ⟨rfl, claim_C6_round_trip [] rfl⟩

/-- C7: every parsed JSON object whose `cmd` value is the string "clear"
enqueues exactly one bare `("clear", None)` entry, whatever the other
fields and the exclusion tuple; at session level, a clear line carrying
a `msg` of "download" queues exactly one clear entry even under the
default exclusion tuple that matches "download". -/
theorem claim_C7_clear (excl : List String) (fs : List (String × J))
    (h : pyGet fs "cmd" = some (J.str "clear")) :
    processObj excl fs = .ok [QueueItem.clear] ∧
    recvStep DEFAULT_EXCLUDE_SENDERS []
        ("\x7b\"cmd\":\"clear\",\"msg\":\"download\"\x7d\n").data
      = ⟨[QueueItem.clear], [], [], false⟩ := by
  refine ⟨?_, rfl⟩
  simp only [processObj, h]
  rfl

theorem claim_C7_witness :
    pyGet [("cmd", J.str "clear"), ("ts", J.num 5)] "cmd"
      = some (J.str "clear") ∧
    processObj [""] [("cmd", J.str "clear"), ("ts", J.num 5)]
      = .ok [QueueItem.clear] :=
  ⟨rfl, (claim_C7_clear [""] [("cmd", J.str "clear"), ("ts", J.num 5)]
    rfl).1⟩

/-- C8: a parsed JSON object whose `cmd` value is missing, non-string, or
a string other than log/error/comment/clear enqueues zero events and
raises nothing; at session level, a ping line followed by a clear line
yields exactly the clear entry, the session continuing past the unknown
command. -/
theorem claim_C8_unknown_cmd (excl : List String) (fs : List (String × J))
    (h : ∀ s : String, pyGet fs "cmd" = some (J.str s) →
      ¬(s = "log") ∧ ¬(s = "error") ∧ ¬(s = "comment") ∧ ¬(s = "clear")) :
    processObj excl fs = .ok [] ∧
    recvStep [] [] ("\x7b\"cmd\":\"ping\"\x7d\n\x7b\"cmd\":\"clear\"\x7d\n").data
      = ⟨[QueueItem.clear], [], [], false⟩ := by
  refine ⟨?_, rfl⟩
  unfold processObj
  cases hc : pyGet fs "cmd" with
  | none => rfl
  | some v =>
    cases v with
    | null => rfl
    | bool b => rfl
    | num n => rfl
    | float x => rfl
    | arr a => rfl
    | obj o => rfl
    | str s =>
      obtain ⟨h1, h2, h3, h4⟩ := h s hc
      simp [h1, h2, h3, h4]

theorem claim_C8_witness :
    (∀ s : String,
      pyGet [("cmd", J.str "ping")] "cmd" = some (J.str s) →
      ¬(s = "log") ∧ ¬(s = "error") ∧ ¬(s = "comment") ∧
        ¬(s = "clear")) ∧
    processObj [] [("cmd", J.str "ping")] = .ok [] := by
  have h : ∀ s : String,
      pyGet [("cmd", J.str "ping")] "cmd" = some (J.str s) →
      ¬(s = "log") ∧ ¬(s = "error") ∧ ¬(s = "comment") ∧
        ¬(s = "clear") := by
    intro s hs
    have hs2 : some (J.str "ping") = some (J.str s) := hs
    injection hs2 with hv
    injection hv with hstr
    subst hstr
    exact ⟨by decide, by decide, by decide, by decide⟩
  exact ⟨h, (claim_C8_unknown_cmd [] [("cmd", J.str "ping")] h).1⟩

/-- C9: `stop()` called twice in sequence raises nothing (every `close()`
is wrapped in an exception-swallowing handler, so the modelled `stop` is
total), and afterwards the running flag is false, the client list is
empty, the listening socket is closed, every previously registered client
socket has been closed, and the second call changes nothing. -/
theorem claim_C9_stop_idempotent (s : ServerState)
    (h : s.sock.isSome = true) :
    (LogServer.stop (LogServer.stop s)).running = false ∧
    (LogServer.stop (LogServer.stop s)).clients = [] ∧
    (LogServer.stop (LogServer.stop s)).sockClosed = true ∧
    (∀ c ∈ s.clients,
      c ∈ (LogServer.stop (LogServer.stop s)).closedClients) ∧
    LogServer.stop (LogServer.stop s) = LogServer.stop s := by
  refine ⟨rfl, rfl, ?_, ?_, ?_⟩
  · simp [LogServer.stop, h]
  · intro c hc
    simp [LogServer.stop]
    exact Or.inr hc
  · cases hs : s.sock.isSome <;> simp [LogServer.stop, hs]

theorem claim_C9_witness :
    (ServerState.mk true [7, 8] (some 3) [] false).sock.isSome = true ∧
    ((LogServer.stop (LogServer.stop
        (ServerState.mk true [7, 8] (some 3) [] false))).running = false ∧
     (LogServer.stop (LogServer.stop
        (ServerState.mk true [7, 8] (some 3) [] false))).clients = [] ∧
     (LogServer.stop (LogServer.stop
        (ServerState.mk true [7, 8] (some 3) [] false))).sockClosed
        = true ∧
     (∀ c ∈ (ServerState.mk true [7, 8] (some 3) [] false).clients,
       c ∈ (LogServer.stop (LogServer.stop
         (ServerState.mk true [7, 8] (some 3) [] false))).closedClients) ∧
     LogServer.stop (LogServer.stop
         (ServerState.mk true [7, 8] (some 3) [] false))
       = LogServer.stop (ServerState.mk true [7, 8] (some 3) [] false)) :=
  ⟨rfl,
    claim_C9_stop_idempotent (ServerState.mk true [7, 8] (some 3) [] false)
      rfl⟩
